import Mathlib

/-!
Shallow embedding of the `opensource-bot` repository: the `githubapi`
client (request building, `doJSON` status/decode handling, typed errors,
profile/repo fetch operations, file upload), the repo-metadata helpers
(`PreferredCloneURL`, `humanizeInt`), and the Telegram OAuth flow
(`generateState`, session map, `handleGitHubCallback`).

HTTP I/O is modelled by passing the server's response (or a transport
error) as an explicit argument; JSON decoding of response bodies is
modelled by a decoder argument `String → Except String α` standing for
`json.Unmarshal`.  Machine integers (`int64`, `int`) are modelled as
`Int`; byte strings as `List Nat` with each element `< 256`.
-/

deriving instance DecidableEq for Except

/-- `strings.TrimSpace`: strips leading and trailing whitespace (the ASCII
whitespace class; Go's Unicode class agrees on every input the bot sees).
Defined over the character list so it evaluates by kernel reduction. -/
def goTrimSpace (s : String) : String :=
  ⟨((s.data.dropWhile Char.isWhitespace).reverse.dropWhile Char.isWhitespace).reverse⟩

/-- `strings.ToLower`: ASCII case mapping (Go's Unicode mapping agrees on
ASCII logins and filenames). -/
def goToLower (s : String) : String := ⟨s.data.map Char.toLower⟩

/-- `strings.HasSuffix`. -/
def goHasSuffix (s suffix : String) : Bool := suffix.data.isSuffixOf s.data

namespace GithubApi

/-- OAuth application credentials (`OAuthApp` in the source). -/
structure OAuthApp where
  clientID : String
  clientSecret : String
  redirectURI : String
deriving DecidableEq, Repr

/-- The zero value of `OAuthApp` (all fields empty), as Go zero-initialises it. -/
def OAuthApp.zero : OAuthApp := ⟨"", "", ""⟩

/-- The configuration fields of the Go `GitHubAPI` struct.  The pluggable
HTTP transport (`http Doer`, an interface pointer) is modelled by an
identifying tag `httpTag : Nat`; the actual responding behaviour is passed
to each operation as an explicit response argument.  `timeout` is in
nanoseconds as Go's `time.Duration`. -/
structure GitHubAPI where
  oAuth : OAuthApp
  baseURL : String
  userAgent : String
  timeout : Int
  httpTag : Nat
  accessToken : String
deriving DecidableEq, Repr

/-- The Go zero value of `GitHubAPI`: empty strings, zero timeout, nil transport. -/
def GitHubAPI.zero : GitHubAPI := ⟨OAuthApp.zero, "", "", 0, 0, ""⟩

/-- `NewDefaultGitHubAPI`: base URL `https://api.github.com`, a fresh
`http.Client` with 10s timeout (transport tag 1), user agent
`githubapi/1.0`, timeout 10s (in nanoseconds). -/
def NewDefaultGitHubAPI : GitHubAPI :=
  { oAuth := OAuthApp.zero
    baseURL := "https://api.github.com"
    userAgent := "githubapi/1.0"
    timeout := 10000000000
    httpTag := 1
    accessToken := "" }

/-- `applyFrom`: copies `http`, `oAuth`, `baseURL`, `userAgent`, `timeout`
from `api` onto `p` (the receiver).  Note `accessToken` is not copied. -/
def applyFrom (p api : GitHubAPI) : GitHubAPI :=
  { p with
    httpTag := api.httpTag
    oAuth := api.oAuth
    baseURL := api.baseURL
    userAgent := api.userAgent
    timeout := api.timeout }

/-- An HTTP response as seen by `doJSON`: status code and the full body
sent by the server (before the 1 MiB cap). -/
structure HTTPResp where
  status : Nat
  body : String
deriving DecidableEq, Repr

/-- The result of `c.http.Do(req)`: either a transport error or a response. -/
abbrev HTTPResult := Except String HTTPResp

/-- The error taxonomy of the `githubapi` package:
`transport` models a non-nil error from `http.Client.Do`;
`httpError` is the `*HTTPError{StatusCode, Body}` struct;
`decodeError` a `json.Unmarshal` failure;
`profileNotFound`/`repoNotFound` the `ProfileNotFoundError`/`RepoNotFoundError`
structs; `invalidInput` models `errors.New` on empty usernames. -/
inductive GhError where
  | transport (msg : String)
  | httpError (status : Nat) (body : String)
  | decodeError (msg : String)
  | profileNotFound (profile : String)
  | repoNotFound (repo : String)
  | invalidInput (msg : String)
deriving DecidableEq, Repr

/-- A request built by `newReq`: method, full URL, headers.  The body of
upload requests is carried separately (see `UploadBody`). -/
structure Request where
  method : String
  url : String
  accept : String
  userAgent : Option String
deriving DecidableEq, Repr

/-- `newReq`: builds a request at `baseURL ++ path` with the versioned
`Accept` header, and a `User-Agent` header when `c.userAgent` is non-empty. -/
def newReq (c : GitHubAPI) (method path : String) : Request :=
  { method := method
    url := c.baseURL ++ path
    accept := "application/vnd.github.v3+json"
    userAgent := if c.userAgent = "" then none else some c.userAgent }

/-- The 1 MiB body cap of `doJSON`: `io.LimitReader(resp.Body, 1<<20)`. -/
def bodyCap (s : String) : String := ⟨s.data.take 1048576⟩

/-- `doJSON`: transport errors propagate; the (capped) body of any non-2xx
response becomes an `HTTPError`; on 2xx, when the caller passed no decode
target (`dec = none`) or the capped body is empty, no decoding happens and
the caller's target keeps its zero value (`.ok none`); otherwise the body
is decoded, a failure becoming a `decodeError`. -/
def doJSON {α : Type} (resp : HTTPResult) (dec : Option (String → Except String α)) :
    Except GhError (Option α) :=
  match resp with
  | .error e => .error (.transport e)
  | .ok r =>
    let b := bodyCap r.body
    if r.status < 200 ∨ 300 ≤ r.status then .error (.httpError r.status b)
    else
      match dec with
      | none => .ok none
      | some d =>
        if b = "" then .ok none
        else
          match d b with
          | .error e => .error (.decodeError e)
          | .ok v => .ok (some v)

/-- Uppercase hexadecimal digit, as `net/url` uses for percent-encoding. -/
def hexDigit (n : Nat) : Char :=
  if n < 10 then Char.ofNat (48 + n) else Char.ofNat (55 + n)

/-- UTF-8 encoding of a character, as Go strings are UTF-8 byte sequences. -/
def utf8Bytes (ch : Char) : List Nat :=
  let n := ch.toNat
  if n < 128 then [n]
  else if n < 2048 then [192 + n / 64, 128 + n % 64]
  else if n < 65536 then [224 + n / 4096, 128 + (n / 64) % 64, 128 + n % 64]
  else [240 + n / 262144, 128 + (n / 4096) % 64, 128 + (n / 64) % 64, 128 + n % 64]

/-- Characters `url.PathEscape` leaves unescaped in a path segment:
ASCII alphanumerics, `-_.~`, and the sub-delimiters `$&+:=@`. -/
def pathSegmentUnescaped (ch : Char) : Bool :=
  ch.isAlphanum || ch ∈ ['-', '_', '.', '~', '$', '&', '+', ':', '=', '@']

/-- `url.PathEscape`: percent-encodes (per UTF-8 byte, uppercase hex) every
character not allowed in a path segment. -/
def pathEscape (s : String) : String :=
  ⟨(s.data.map (fun ch =>
      if pathSegmentUnescaped ch then [ch]
      else ((utf8Bytes ch).map (fun b => ['%', hexDigit (b / 16), hexDigit (b % 16)])).flatten)).flatten⟩

/-- The decoded JSON fields of `GitHubProfileAPI` that the claims and the
chat flow read (`login`, `id`, `name`, `email`); the remaining generated
URL/count fields are inert data carried the same way and are omitted.
`Email` is `*string` in the source, hence `Option String`. -/
structure ProfileData where
  login : String
  id : Int
  name : String
  email : Option String
deriving DecidableEq, Repr

/-- Go zero value of the profile data fields. -/
def ProfileData.zero : ProfileData := ⟨"", 0, "", none⟩

/-- `GitHubProfileAPI`: embeds the `GitHubAPI` configuration plus the
decoded profile fields. -/
structure GitHubProfileAPI where
  api : GitHubAPI
  data : ProfileData
deriving DecidableEq, Repr

/-- The decoded JSON fields of `GitHubRepoAPI` that the claims and helpers
read; `owner` is flattened to its `login`. -/
structure RepoData where
  id : Int
  name : String
  fullName : String
  «private» : Bool
  ownerLogin : String
  htmlURL : String
  gitURL : String
  sshURL : String
  cloneURL : String
  visibility : String
  defaultBranch : String
  stargazersCount : Int
  forksCount : Int
  watchers : Int
deriving DecidableEq, Repr

/-- Go zero value of the repo data fields. -/
def RepoData.zero : RepoData := ⟨0, "", "", false, "", "", "", "", "", "", "", 0, 0, 0⟩

/-- `GitHubRepoAPI`: embeds the `GitHubAPI` configuration plus the decoded
repo fields. -/
structure GitHubRepoAPI where
  api : GitHubAPI
  data : RepoData
deriving DecidableEq, Repr

/-- `CheckUserExists`: trims the username, rejects empty input, requests
`/users/{name}`; a 404 means `(false, nil)`, any other `doJSON` error
propagates, a 2xx means `(true, nil)`. -/
def CheckUserExists (c : GitHubAPI) (username : String)
    (respond : Request → HTTPResult) : Except GhError Bool :=
  let username := goTrimSpace username
  if username = "" then .error (.invalidInput "username is empty")
  else
    let req := newReq c "GET" ("/users/" ++ pathEscape username)
    match doJSON (α := Unit) (respond req) none with
    | .error (.httpError 404 b) => let _ := b; .ok false
    | .error e => .error e
    | .ok _ => .ok true

/-- `GetUserIfExists`: trims the username, rejects empty input, requests
`/users/{name}` and decodes into a zero-initialised profile; 404 becomes
`ProfileNotFoundError(username)`, other errors propagate, and on success
`profile.applyFrom(c)` stamps the client configuration onto the profile. -/
def GetUserIfExists (c : GitHubAPI) (username : String)
    (respond : Request → HTTPResult) (dec : String → Except String ProfileData) :
    Except GhError GitHubProfileAPI :=
  let username := goTrimSpace username
  if username = "" then .error (.invalidInput "username is empty")
  else
    let req := newReq c "GET" ("/users/" ++ pathEscape username)
    match doJSON (respond req) (some dec) with
    | .error (.httpError 404 b) => let _ := b; .error (.profileNotFound username)
    | .error e => .error e
    | .ok v => .ok { api := applyFrom GitHubAPI.zero c, data := v.getD ProfileData.zero }

/-- `CheckUserExistsById`: requests `/user/{id}`; 404 means `(false, nil)`,
other errors propagate, 2xx means `(true, nil)`. -/
def CheckUserExistsById (c : GitHubAPI) (id : Int)
    (respond : Request → HTTPResult) : Except GhError Bool :=
  let req := newReq c "GET" ("/user/" ++ pathEscape (toString id))
  match doJSON (α := Unit) (respond req) none with
  | .error (.httpError 404 b) => let _ := b; .ok false
  | .error e => .error e
  | .ok _ => .ok true

/-- `CheckIsRepoExistsById`: requests `/repositories/{id}` decoding into a
fresh repo.  Only a 404 `HTTPError` yields `(false, nil)`; any *other*
`doJSON` error falls out of the `if` block without returning, so the
function reaches its final `return true, nil` — non-404 failures are
swallowed and reported as existence. -/
def CheckIsRepoExistsById (c : GitHubAPI) (id : Int)
    (respond : Request → HTTPResult) (dec : String → Except String RepoData) :
    Except GhError Bool :=
  let req := newReq c "GET" ("/repositories/" ++ pathEscape (toString id))
  match doJSON (respond req) (some dec) with
  | .error (.httpError 404 b) => let _ := b; .ok false
  | .error _ => .ok true
  | .ok _ => .ok true

/-- `GetRepoByIdIfExist`: requests `/repositories/{id}`; 404 becomes
`RepoNotFoundError(fmt.Sprint(id))`, other errors propagate; the returned
repo keeps the zero-valued embedded configuration — unlike the profile
fetches, the source never calls `applyFrom` here. -/
def GetRepoByIdIfExist (c : GitHubAPI) (id : Int)
    (respond : Request → HTTPResult) (dec : String → Except String RepoData) :
    Except GhError GitHubRepoAPI :=
  let req := newReq c "GET" ("/repositories/" ++ pathEscape (toString id))
  match doJSON (respond req) (some dec) with
  | .error (.httpError 404 b) => let _ := b; .error (.repoNotFound (toString id))
  | .error e => .error e
  | .ok v => .ok { api := GitHubAPI.zero, data := v.getD RepoData.zero }

/-- `GetUserByIdIfExist`: requests `/user/{id}`; 404 becomes
`ProfileNotFoundError(strconv.FormatInt(id, 10))`, other errors propagate,
and on success `applyFrom` stamps the client configuration. -/
def GetUserByIdIfExist (c : GitHubAPI) (id : Int)
    (respond : Request → HTTPResult) (dec : String → Except String ProfileData) :
    Except GhError GitHubProfileAPI :=
  let req := newReq c "GET" ("/user/" ++ pathEscape (toString id))
  match doJSON (respond req) (some dec) with
  | .error (.httpError 404 b) => let _ := b; .error (.profileNotFound (toString id))
  | .error e => .error e
  | .ok v => .ok { api := applyFrom GitHubAPI.zero c, data := v.getD ProfileData.zero }

/-- `(*GitHubProfileAPI).IsRepoExist`: requests `/repos/{login}/{name}`
(unescaped `Sprintf` in the source).  A 404 yields `(false, nil)`; for any
other `doJSON` error the source executes `return false, err` where `err`
is the *`newReq`* error — which is `nil` at that point — so the failure is
swallowed into `(false, nil)`. -/
def IsRepoExist (p : GitHubProfileAPI) (name : String)
    (respond : Request → HTTPResult) (dec : String → Except String RepoData) :
    Except GhError Bool :=
  let req := newReq p.api "GET" ("/repos/" ++ p.data.login ++ "/" ++ name)
  match doJSON (respond req) (some dec) with
  | .error (.httpError 404 b) => let _ := b; .ok false
  | .error _ => .ok false
  | .ok _ => .ok true

/-- `(*GitHubProfileAPI).GetRepoIfExist`: requests `/repos/{login}/{name}`;
404 becomes `RepoNotFoundError(name)`; for any other `doJSON` error the
source executes `return nil, err` with the shadowing `err` still `nil`,
producing `(nil, nil)` — modelled as `.ok none`.  On success the repo is
returned without `applyFrom`, keeping the zero configuration. -/
def GetRepoIfExist (p : GitHubProfileAPI) (name : String)
    (respond : Request → HTTPResult) (dec : String → Except String RepoData) :
    Except GhError (Option GitHubRepoAPI) :=
  let req := newReq p.api "GET" ("/repos/" ++ p.data.login ++ "/" ++ name)
  match doJSON (respond req) (some dec) with
  | .error (.httpError 404 b) => let _ := b; .error (.repoNotFound name)
  | .error _ => .ok none
  | .ok v => .ok (some { api := GitHubAPI.zero, data := v.getD RepoData.zero })

/-- `PreferredCloneURL`: the SSH URL when `ssh` is set and it is non-empty,
else the HTTPS clone URL if non-empty, else the git URL if non-empty, else
the HTML URL. -/
def PreferredCloneURL (r : GitHubRepoAPI) (ssh : Bool) : String :=
  if ssh ∧ r.data.sshURL ≠ "" then r.data.sshURL
  else if r.data.cloneURL ≠ "" then r.data.cloneURL
  else if r.data.gitURL ≠ "" then r.data.gitURL
  else r.data.htmlURL

/-- Round-to-nearest integer division with ties to even, the rounding used
both by IEEE-754 binary64 arithmetic and by Go's fixed-precision decimal
formatting in `strconv`. -/
def rdiv (a b : Nat) : Nat :=
  if 2 * (a % b) < b then a / b
  else if b < 2 * (a % b) then a / b + 1
  else if (a / b) % 2 = 0 then a / b else a / b + 1

/-- Downward scan for the binary exponent: the largest `r ≤ s` with
`2^r ≤ v`, and `0` when none is.  Structural in `s`, so it evaluates by
kernel reduction (unlike `Nat.log2`). -/
def expDown : Nat → Nat → Nat
  | 0, _ => 0
  | s + 1, v => if 2 ^ (s + 1) ≤ v then s + 1 else expDown s v

/-- `⌊log2 v⌋` for `1 ≤ v < 2^54`, the binary exponent of an IEEE binary64
value in that range. -/
def floorLog2 (v : Nat) : Nat := expDown 53 v

/-- Models `fmt.Sprintf("%.1f", float64(n)/float64(d))` for `1 ≤ n/d` and
`n < 2^53` (so `float64(n)` is exact): the quotient is first rounded to a
53-bit binary64 significand (`M / 2^(52-s)` with `s = ⌊log2 (n/d)⌋`), then
formatted to one decimal digit with correct rounding, ties to even —
matching Go's `strconv` decimal rounding. -/
def fmtFixed1 (n d : Nat) : String :=
  let s := floorLog2 (n / d)
  let sc := 2 ^ (52 - s)
  let M := rdiv (n * sc) d
  let t := rdiv (M * 10) sc
  toString (t / 10) ++ "." ++ toString (t % 10)

/-- `humanizeInt`: counts of at least 1,000,000 print as the quotient by
10^6 with one decimal and an `M` suffix, counts of at least 1,000 as the
quotient by 10^3 with one decimal and a `k` suffix, anything below 1,000
(including Go's negative `int` inputs) as `%d`. -/
def humanizeInt (n : Int) : String :=
  if 1000000 ≤ n then fmtFixed1 n.toNat 1000000 ++ "M"
  else if 1000 ≤ n then fmtFixed1 n.toNat 1000 ++ "k"
  else toString n

/-- `StarsHuman`: `humanizeInt(r.StargazersCount)`. -/
def StarsHuman (r : GitHubRepoAPI) : String := humanizeInt r.data.stargazersCount

/-- The standard base64 alphabet (`base64.StdEncoding`): `A-Z`, `a-z`,
`0-9`, `+`, `/`. -/
def b64Char (v : Nat) : Char :=
  if v < 26 then Char.ofNat (65 + v)
  else if v < 52 then Char.ofNat (97 + (v - 26))
  else if v < 62 then Char.ofNat (48 + (v - 52))
  else if v = 62 then '+'
  else '/'

/-- Inverse of the standard base64 alphabet (0 on anything else). -/
def b64Val (c : Char) : Nat :=
  if 65 ≤ c.toNat ∧ c.toNat ≤ 90 then c.toNat - 65
  else if 97 ≤ c.toNat ∧ c.toNat ≤ 122 then c.toNat - 71
  else if 48 ≤ c.toNat ∧ c.toNat ≤ 57 then c.toNat + 4
  else if c = '+' then 62
  else if c = '/' then 63
  else 0

/-- `base64.StdEncoding.EncodeToString` over a byte sequence: 3 bytes map
to 4 alphabet characters; a final 1- or 2-byte group is `=`-padded. -/
def base64EncodeList : List Nat → List Char
  | [] => []
  | [a] => [b64Char (a / 4), b64Char (a % 4 * 16), '=', '=']
  | [a, b] => [b64Char (a / 4), b64Char (a % 4 * 16 + b / 16), b64Char (b % 16 * 4), '=']
  | a :: b :: c :: rest =>
    b64Char (a / 4) :: b64Char (a % 4 * 16 + b / 16) ::
      b64Char (b % 16 * 4 + c / 64) :: b64Char (c % 64) :: base64EncodeList rest

/-- Standard base64 decoding of an encoded character sequence, the check a
mock server would perform on the upload body. -/
def base64DecodeList : List Char → List Nat
  | c1 :: c2 :: c3 :: c4 :: rest =>
    let a := b64Val c1
    let b := b64Val c2
    if c3 = '=' then [a * 4 + b / 16]
    else
      let c := b64Val c3
      if c4 = '=' then [a * 4 + b / 16, b % 16 * 16 + c / 4]
      else (a * 4 + b / 16) :: (b % 16 * 16 + c / 4) :: (c % 4 * 64 + b64Val c4) ::
        base64DecodeList rest
  | _ => []

/-- The UTF-8 bytes of a Go string (`[]byte(content)`). -/
def strBytes (s : String) : List Nat := (s.data.map utf8Bytes).flatten

/-- `base64.StdEncoding.EncodeToString([]byte(s))`. -/
def base64Encode (s : String) : String := ⟨base64EncodeList (strBytes s)⟩

/-- The decoded fields of `CreateContentResp` the callers can read. -/
structure CreateContentResp where
  contentName : String
  contentPath : String
  contentSHA : String
  commitSHA : String
deriving DecidableEq, Repr

/-- Go zero value of `CreateContentResp`. -/
def CreateContentResp.zero : CreateContentResp := ⟨"", "", "", ""⟩

/-- The JSON body of the upload request: `message`, the base64 `content`,
and `branch` only when non-empty (matching the conditional map entry). -/
structure UploadBody where
  message : String
  content : String
  branch : Option String
deriving DecidableEq, Repr

/-- The PUT request `UploadMdFileWithToken` issues: `newReq` headers plus
`Content-Type: application/json` and a bearer token when the repo's
`accessToken` is non-empty. -/
structure UploadReq where
  method : String
  url : String
  accept : String
  userAgent : Option String
  contentType : Option String
  authorization : Option String
  body : UploadBody
deriving DecidableEq, Repr

/-- The error outcomes of `UploadMdFileWithToken`.  `emptyFilename` is the
`fmt.Errorf("filename is empty")` value; `alreadyExists` is the
`fmt.Errorf("file %q already exists on branch %q: %s", ...)` value built
from a 422 `HTTPError` — a plain formatted error, no longer an
`*HTTPError`, hence a distinct constructor; `gh` wraps every error
`doJSON` returned unchanged. -/
inductive UploadErr where
  | emptyFilename
  | alreadyExists (fn branch body : String)
  | gh (e : GhError)
deriving DecidableEq, Repr

/-- `strings.Split(p, "/")` over character lists. -/
def splitSlash : List Char → List (List Char)
  | [] => [[]]
  | '/' :: rest => [] :: splitSlash rest
  | c :: rest =>
    match splitSlash rest with
    | [] => [[c]]
    | g :: gs => (c :: g) :: gs

/-- `strings.Join(segs, "/")` over character lists. -/
def joinSlash : List (List Char) → String
  | [] => ""
  | [g] => ⟨g⟩
  | g :: gs => ⟨g⟩ ++ "/" ++ joinSlash gs

/-- `pathEscapeSegments`: splits on `/`, escapes each segment, rejoins. -/
def pathEscapeSegments (p : String) : String :=
  joinSlash ((splitSlash p.data).map (fun seg => (pathEscape ⟨seg⟩).data))

/-- `strings.TrimLeft(fn, "/")`: drops every leading `/`. -/
def trimLeftSlashes (s : String) : String := ⟨s.data.dropWhile (· = '/')⟩

/-- The filename normalisation of `UploadMdFileWithToken` after the
emptiness check on the trimmed name: append `.md` unless the lowercased
name already ends in it, then strip leading slashes. -/
def normalizeMdFilename (fn : String) : String :=
  trimLeftSlashes (if goHasSuffix (goToLower fn) ".md" = false then fn ++ ".md" else fn)

/-- `UploadMdFileWithToken`: trims the filename and rejects a blank one
before building any request; appends `.md` unless the lowercased name
already ends in it; strips leading slashes; defaults the commit message to
`chore: add <fn>` and the branch to the repo's default branch; sends the
base64-encoded content in a JSON `PUT` to
`/repos/{owner}/{repo}/contents/{path}`; maps a 422 response to the
"already exists" error and keeps every other `doJSON` error as-is.
Returns the list of requests issued alongside the result. -/
def UploadMdFileWithToken (r : GitHubRepoAPI) (filename content commitMsg branch : String)
    (respond : UploadReq → HTTPResult) (dec : String → Except String CreateContentResp) :
    List UploadReq × Except UploadErr CreateContentResp :=
  let fn := goTrimSpace filename
  if fn = "" then ([], .error .emptyFilename)
  else
    let fn := normalizeMdFilename fn
    let commitMsg := if commitMsg = "" then "chore: add " ++ fn else commitMsg
    let branch := if branch = "" then r.data.defaultBranch else branch
    let body : UploadBody :=
      { message := commitMsg
        content := base64Encode content
        branch := if branch = "" then none else some branch }
    let reqPath := "/repos/" ++ pathEscape r.data.ownerLogin ++ "/" ++
      pathEscape r.data.name ++ "/contents/" ++ pathEscapeSegments fn
    let req : UploadReq :=
      { method := "PUT"
        url := r.api.baseURL ++ reqPath
        accept := "application/vnd.github.v3+json"
        userAgent := if r.api.userAgent = "" then none else some r.api.userAgent
        contentType := some "application/json"
        authorization :=
          if r.api.accessToken = "" then none else some ("Bearer " ++ r.api.accessToken)
        body := body }
    let result : Except UploadErr CreateContentResp :=
      match doJSON (respond req) (some dec) with
      | .error (.httpError 422 b) => .error (.alreadyExists fn branch b)
      | .error e => .error (.gh e)
      | .ok v => .ok (v.getD CreateContentResp.zero)
    ([req], result)

end GithubApi

namespace Bot

/-- The decoded `/user` identity in the Telegram flow (`GitHubUser`):
unlike `GitHubProfileAPI`, `email` is a plain string here. -/
structure GitHubUser where
  login : String
  id : Int
  name : String
  email : String
  avatarURL : String
deriving DecidableEq, Repr

/-- A pending verification session (`AuthSession`): the requesting chat,
the state token, and the username the user asked to verify. -/
structure AuthSession where
  chatID : Int
  state : String
  requestedLogin : String
deriving DecidableEq, Repr

/-- `generateState`: `fmt.Sprintf("%d_%d", chatID, time.Now().UnixNano())`.
The token is a pure function of the requesting chat id and the current
wall-clock nanosecond counter — the clock reading is passed explicitly
here; the source draws no randomness at all. -/
def generateState (chatID : Int) (nowUnixNano : Int) : String :=
  toString chatID ++ "_" ++ toString nowUnixNano

/-- `emptyIf`: substitutes `repl` for a blank (whitespace-only) string. -/
def emptyIf (s repl : String) : String :=
  if goTrimSpace s = "" then repl else s

/-- The session map `authSessions` keyed by state token.  All mutations in
the source happen with `authMu` held, so the callback's
lookup-and-delete executes as one step; the model presents exactly that
atomic step. -/
abbrev SessionMap := List (String × AuthSession)

/-- Go map lookup `authSessions[state]`. -/
def lookupSession (m : SessionMap) (state : String) : Option AuthSession :=
  m.lookup state

/-- Go `delete(authSessions, state)`. -/
def deleteSession (m : SessionMap) (state : String) : SessionMap :=
  m.filter (fun p => p.1 ≠ state)

/-- The chat notifications `handleGitHubCallback` can send, one
constructor per `bot.Send` call site: the token-exchange failure text, the
identity-fetch failure text, the mismatch text (carrying the requested and
the actually-authorised login it interpolates), and the success text
(carrying the interpolated name, login, email and id). -/
inductive Note where
  | authError
  | userInfoError
  | mismatch (requested authorized : String)
  | success (name login email : String) (id : Int)
deriving DecidableEq, Repr

/-- The HTML page the handler writes on a completed exchange. -/
inductive Page where
  | failure
  | success (login : String)
deriving DecidableEq, Repr

/-- The observable outcome of one callback: the HTTP status written
(`http.Error` sets 400/500; `Fprintf` leaves the implicit 200), the page
rendered, the notifications sent to chats, and the session map left
behind. -/
structure CallbackResult where
  status : Nat
  page : Option Page
  notes : List (Int × Note)
  sessions : SessionMap
deriving DecidableEq, Repr

/-- `handleGitHubCallback`: rejects a missing `code` or `state` with 400
before any session lookup; looks up and (if present) deletes the session
for `state` under the lock as one step, rejecting an unknown token with
400; exchanges the code (modelled by the `exchange` oracle), a failure
giving 500 plus an auth-error note; fetches the identity (`getUser`
oracle), a failure giving 500 plus a note; compares the logins through
`strings.ToLower` on both sides, a mismatch sending the mismatch note and
rendering the failure page at the implicit 200; a match sending the
success note and rendering the success page. -/
def handleGitHubCallback (code state : String) (sessions : SessionMap)
    (exchange : String → Except String String)
    (getUser : String → Except String GitHubUser) : CallbackResult :=
  if code = "" ∨ state = "" then
    { status := 400, page := none, notes := [], sessions := sessions }
  else
    match lookupSession sessions state with
    | none => { status := 400, page := none, notes := [], sessions := sessions }
    | some session =>
      let sessions := deleteSession sessions state
      match exchange code with
      | .error _ =>
        { status := 500, page := none
          notes := [(session.chatID, .authError)], sessions := sessions }
      | .ok accessToken =>
        match getUser accessToken with
        | .error _ =>
          { status := 500, page := none
            notes := [(session.chatID, .userInfoError)], sessions := sessions }
        | .ok user =>
          if goToLower user.login ≠ goToLower session.requestedLogin then
            { status := 200, page := some .failure
              notes := [(session.chatID, .mismatch session.requestedLogin user.login)]
              sessions := sessions }
          else
            { status := 200, page := some (.success user.login)
              notes := [(session.chatID,
                .success (emptyIf user.name "—") user.login (emptyIf user.email "—") user.id)]
              sessions := sessions }

end Bot

/-! ## Claim theorems -/

open GithubApi Bot

/-- C8: `PreferredCloneURL` selects, in order, the SSH URL when the SSH
flag is set and that URL is non-empty, otherwise the first non-empty of
HTTPS clone URL, git URL, and finally the HTML URL; in particular a repo
with SSH URL `git@x` and clone URL `https://x` yields `git@x` under
`ssh = true` and `https://x` under `ssh = false`. -/
theorem preferredCloneURL_order (r : GitHubRepoAPI) (ssh : Bool) :
    (ssh = true → r.data.sshURL ≠ "" → PreferredCloneURL r ssh = r.data.sshURL) ∧
    ((ssh = false ∨ r.data.sshURL = "") → r.data.cloneURL ≠ "" →
      PreferredCloneURL r ssh = r.data.cloneURL) ∧
    ((ssh = false ∨ r.data.sshURL = "") → r.data.cloneURL = "" → r.data.gitURL ≠ "" →
      PreferredCloneURL r ssh = r.data.gitURL) ∧
    ((ssh = false ∨ r.data.sshURL = "") → r.data.cloneURL = "" → r.data.gitURL = "" →
      PreferredCloneURL r ssh = r.data.htmlURL) ∧
    (PreferredCloneURL
        ⟨GitHubAPI.zero, { RepoData.zero with sshURL := "git@x", cloneURL := "https://x" }⟩
        true = "git@x") ∧
    (PreferredCloneURL
        ⟨GitHubAPI.zero, { RepoData.zero with sshURL := "git@x", cloneURL := "https://x" }⟩
        false = "https://x") := by
  refine ⟨fun h1 h2 => by simp [PreferredCloneURL, h1, h2],
    fun h hc => ?_, fun h hc hg => ?_, fun h hc hg => ?_, by decide, by decide⟩
  · rcases h with h | h <;> simp [PreferredCloneURL, h, hc]
  · rcases h with h | h <;> simp [PreferredCloneURL, h, hc, hg]
  · rcases h with h | h <;> simp [PreferredCloneURL, h, hc, hg]

/-- C8 witness: the theorem applied at a concrete repo, discharging each
hypothesis. -/
theorem preferredCloneURL_order_witness :
    PreferredCloneURL ⟨GitHubAPI.zero, { RepoData.zero with sshURL := "git@y" }⟩ true =
      "git@y" :=
  (preferredCloneURL_order ⟨GitHubAPI.zero, { RepoData.zero with sshURL := "git@y" }⟩
    true).1 rfl (by decide)

/-- C3: the state token is *not* derived from a high-entropy source — the
claim fails on the code.  `generateState` is a pure function of the chat
id and the wall-clock nanosecond counter alone (`%d_%d`), so at any known
clock reading the token for a given chat is fully predictable: chat 42 at
clock 1700000000123456789 always yields `42_1700000000123456789`, and two
calls with equal clock readings always collide. -/
theorem generateState_predictable :
    generateState 42 1700000000123456789 = "42_1700000000123456789" ∧
    (∀ chatID now : Int, generateState chatID now = toString chatID ++ "_" ++ toString now) :=
  ⟨rfl, fun _ _ => rfl⟩

/-- C1: the claim fails on the code.  `doJSON` does produce the typed
`HTTPError` for a 500 response (first conjunct), but the three repo
operations swallow it: `CheckIsRepoExistsById` falls through its error
check and returns `(true, nil)`; `IsRepoExist` and `GetRepoIfExist`
return the shadowed — and therefore `nil` — `newReq` error, yielding
`(false, nil)` and `(nil, nil)` respectively. -/
theorem repoOps_swallow_non404_errors :
    (doJSON (α := RepoData) (.ok ⟨500, "oops"⟩) (some (fun _ => Except.error "x")) =
      .error (.httpError 500 "oops")) ∧
    (CheckIsRepoExistsById NewDefaultGitHubAPI 7
      (fun _ => .ok ⟨500, "oops"⟩) (fun _ => .error "x") = .ok true) ∧
    (IsRepoExist ⟨NewDefaultGitHubAPI, { ProfileData.zero with login := "alice" }⟩ "repo"
      (fun _ => .ok ⟨500, "oops"⟩) (fun _ => .error "x") = .ok false) ∧
    (GetRepoIfExist ⟨NewDefaultGitHubAPI, { ProfileData.zero with login := "alice" }⟩ "repo"
      (fun _ => .ok ⟨500, "oops"⟩) (fun _ => .error "x") = .ok none) := by
  refine ⟨?_, ?_, ?_, ?_⟩ <;> rfl

/-- C4: the claim fails on the code for repos.  A profile fetched on a 2xx
response carries the producing client's configuration (`applyFrom` copies
base URL, user agent, timeout, OAuth app and transport), but a repo
fetched by `GetRepoByIdIfExist` or `GetRepoIfExist` keeps the zero-valued
embedded configuration — empty base URL and nil transport — which differs
from the producing client's. -/
theorem repo_config_not_inherited :
    (GetUserIfExists NewDefaultGitHubAPI "alice"
      (fun _ => .ok ⟨200, ""⟩) (fun _ => .error "unused") =
      .ok ⟨applyFrom GitHubAPI.zero NewDefaultGitHubAPI, ProfileData.zero⟩) ∧
    ((applyFrom GitHubAPI.zero NewDefaultGitHubAPI).baseURL = NewDefaultGitHubAPI.baseURL ∧
      (applyFrom GitHubAPI.zero NewDefaultGitHubAPI).userAgent = NewDefaultGitHubAPI.userAgent ∧
      (applyFrom GitHubAPI.zero NewDefaultGitHubAPI).timeout = NewDefaultGitHubAPI.timeout ∧
      (applyFrom GitHubAPI.zero NewDefaultGitHubAPI).oAuth = NewDefaultGitHubAPI.oAuth ∧
      (applyFrom GitHubAPI.zero NewDefaultGitHubAPI).httpTag = NewDefaultGitHubAPI.httpTag) ∧
    (GetRepoByIdIfExist NewDefaultGitHubAPI 7
      (fun _ => .ok ⟨200, ""⟩) (fun _ => .error "unused") =
      .ok ⟨GitHubAPI.zero, RepoData.zero⟩) ∧
    (GetRepoIfExist ⟨applyFrom GitHubAPI.zero NewDefaultGitHubAPI,
        { ProfileData.zero with login := "alice" }⟩ "repo"
      (fun _ => .ok ⟨200, ""⟩) (fun _ => .error "unused") =
      .ok (some ⟨GitHubAPI.zero, RepoData.zero⟩)) ∧
    (GitHubAPI.zero.baseURL ≠ NewDefaultGitHubAPI.baseURL ∧
      GitHubAPI.zero.httpTag ≠ NewDefaultGitHubAPI.httpTag) := by
  refine ⟨by decide, ⟨rfl, rfl, rfl, rfl, rfl⟩, by decide, by decide, by decide, by decide⟩


/-- Deleting a token removes every binding for it. -/
theorem lookupSession_deleteSession (m : SessionMap) (k : String) :
    lookupSession (deleteSession m k) k = none := by
  induction m with
  | nil => rfl
  | cons p m ih =>
    rcases p with ⟨a, b⟩
    by_cases h : a = k
    · have hstep : deleteSession ((a, b) :: m) k = deleteSession m k := by
        simp [deleteSession, List.filter_cons, h]
      rw [hstep]; exact ih
    · have hstep : deleteSession ((a, b) :: m) k = (a, b) :: deleteSession m k := by
        simp [deleteSession, List.filter_cons, h]
      have hk : (k == a) = false := beq_eq_false_iff_ne.mpr (Ne.symm h)
      rw [hstep]
      simpa [lookupSession, List.lookup, hk] using ih

/-- After a callback that found its session, the map left behind is the
input map with the token deleted, whatever the exchange and identity
fetch did. -/
theorem handleCallback_sessions_after (code state : String) (sessions : SessionMap)
    (exchange : String → Except String String) (getUser : String → Except String GitHubUser)
    (session : AuthSession) (hc : code ≠ "") (hs : state ≠ "")
    (hl : lookupSession sessions state = some session) :
    (handleGitHubCallback code state sessions exchange getUser).sessions =
      deleteSession sessions state := by
  unfold handleGitHubCallback
  rw [if_neg (by simp [hc, hs]), hl]
  cases hx : exchange code with
  | error e => rfl
  | ok tok =>
    cases hy : getUser tok with
    | error e => simp [hy]
    | ok user =>
      by_cases hm : goToLower user.login = goToLower session.requestedLogin <;> simp [hy, hm]

/-- C2: a state token is consumed at most once.  When a callback finds its
session, the token is gone from the map it leaves behind; a later callback
presenting the same token is rejected with the 400 client error and an
unchanged map, without proceeding to the token exchange; and any token
absent from the map (never inserted or already consumed) is rejected the
same way — so two callbacks with the same token never both get past the
session lookup. -/
theorem session_consumed_at_most_once (code state : String) (sessions : SessionMap)
    (exchange : String → Except String String) (getUser : String → Except String GitHubUser)
    (session : AuthSession) (hc : code ≠ "") (hs : state ≠ "")
    (hl : lookupSession sessions state = some session) :
    lookupSession (handleGitHubCallback code state sessions exchange getUser).sessions state =
      none ∧
    (∀ (code2 : String) (exchange2 : String → Except String String)
        (getUser2 : String → Except String GitHubUser),
      handleGitHubCallback code2 state
          (handleGitHubCallback code state sessions exchange getUser).sessions
          exchange2 getUser2 =
        { status := 400, page := none, notes := [],
          sessions := (handleGitHubCallback code state sessions exchange getUser).sessions }) ∧
    (∀ (code' state' : String) (m : SessionMap)
        (exchange' : String → Except String String)
        (getUser' : String → Except String GitHubUser),
      lookupSession m state' = none →
      handleGitHubCallback code' state' m exchange' getUser' =
        { status := 400, page := none, notes := [], sessions := m }) := by
  have hreject : ∀ (code' state' : String) (m : SessionMap)
      (exchange' : String → Except String String)
      (getUser' : String → Except String GitHubUser),
      lookupSession m state' = none →
      handleGitHubCallback code' state' m exchange' getUser' =
        { status := 400, page := none, notes := [], sessions := m } := by
    intro code' state' m exchange' getUser' hm
    unfold handleGitHubCallback
    by_cases h : code' = "" ∨ state' = ""
    · rw [if_pos h]
    · rw [if_neg h, hm]
  have h1 : lookupSession
      (handleGitHubCallback code state sessions exchange getUser).sessions state = none := by
    rw [handleCallback_sessions_after code state sessions exchange getUser session hc hs hl]
    exact lookupSession_deleteSession sessions state
  exact ⟨h1, fun code2 exchange2 getUser2 => hreject code2 state _ exchange2 getUser2 h1,
    hreject⟩

/-- C2 witness: a concrete session map with token `tok`; the theorem
applied there, each hypothesis discharged. -/
theorem session_consumed_at_most_once_witness :
    lookupSession
      (handleGitHubCallback "c" "tok" [("tok", ⟨1, "tok", "alice"⟩)]
        (fun _ => .error "down") (fun _ => .error "down")).sessions "tok" = none :=
  (session_consumed_at_most_once "c" "tok" [("tok", ⟨1, "tok", "alice"⟩)]
    (fun _ => .error "down") (fun _ => .error "down") ⟨1, "tok", "alice"⟩
    (by decide) (by decide) rfl).1

/-- C6: the callback compares the authenticated login to the requested
login through `strings.ToLower` on both sides, so logins differing only in
case match.  On a mismatch the chat recipient gets exactly one
notification — the mismatch note carrying both the requested and the
actually-authorised login — the failure page is rendered at the implicit
200 (no HTTP error status), and no success notification is sent; on a
(case-insensitive) match the success page and success note are produced. -/
theorem login_mismatch_behaviour (code state : String) (sessions : SessionMap)
    (exchange : String → Except String String) (getUser : String → Except String GitHubUser)
    (session : AuthSession) (tok : String) (user : GitHubUser)
    (hc : code ≠ "") (hs : state ≠ "")
    (hl : lookupSession sessions state = some session)
    (hx : exchange code = .ok tok) (hu : getUser tok = .ok user) :
    (goToLower user.login = goToLower session.requestedLogin →
      (handleGitHubCallback code state sessions exchange getUser).page =
        some (.success user.login) ∧
      (handleGitHubCallback code state sessions exchange getUser).notes =
        [(session.chatID,
          .success (emptyIf user.name "—") user.login (emptyIf user.email "—") user.id)]) ∧
    (goToLower user.login ≠ goToLower session.requestedLogin →
      (handleGitHubCallback code state sessions exchange getUser).notes =
        [(session.chatID, .mismatch session.requestedLogin user.login)] ∧
      (handleGitHubCallback code state sessions exchange getUser).page = some .failure ∧
      (handleGitHubCallback code state sessions exchange getUser).status = 200 ∧
      ∀ (chat : Int) (name login email : String) (id : Int),
        (chat, Note.success name login email id) ∉
          (handleGitHubCallback code state sessions exchange getUser).notes) := by
  unfold handleGitHubCallback
  rw [if_neg (by simp [hc, hs]), hl]
  constructor
  · intro hm
    simp [hx, hu, hm]
  · intro hm
    simp [hx, hu, hm]

/-- C6 witness: requested login `Foo`, authenticated login `foo` — treated
as a match, rendering the success page. -/
theorem login_mismatch_behaviour_witness :
    (handleGitHubCallback "c" "t" [("t", ⟨1, "t", "Foo"⟩)]
      (fun _ => .ok "tok") (fun _ => .ok ⟨"foo", 9, "F", "e@x", "a"⟩)).page =
      some (.success "foo") :=
  ((login_mismatch_behaviour "c" "t" [("t", ⟨1, "t", "Foo"⟩)]
    (fun _ => .ok "tok") (fun _ => .ok ⟨"foo", 9, "F", "e@x", "a"⟩)
    ⟨1, "t", "Foo"⟩ "tok" ⟨"foo", 9, "F", "e@x", "a"⟩
    (by decide) (by decide) rfl rfl rfl).1 (by decide)).1

/-- C7: a 404 response translates to the typed not-found error of the
requested resource's kind, carrying the requested identifier — the
(trimmed) username or the decimal rendering of the numeric id — the two
kinds being distinct constructors; and every existence check translates a
404 to `(false, nil)`. -/
theorem notFound_typed_per_kind (c : GitHubAPI) (username : String) (id : Int)
    (body : String) (respond : Request → HTTPResult)
    (decP : String → Except String ProfileData) (decR : String → Except String RepoData)
    (h404 : ∀ q, respond q = .ok ⟨404, body⟩) (hu : goTrimSpace username ≠ "") :
    GetUserIfExists c username respond decP =
      .error (.profileNotFound (goTrimSpace username)) ∧
    GetUserByIdIfExist c id respond decP = .error (.profileNotFound (toString id)) ∧
    GetRepoByIdIfExist c id respond decR = .error (.repoNotFound (toString id)) ∧
    (∀ (p : GitHubProfileAPI) (name : String),
      GetRepoIfExist p name respond decR = .error (.repoNotFound name)) ∧
    CheckUserExists c username respond = .ok false ∧
    CheckUserExistsById c id respond = .ok false ∧
    CheckIsRepoExistsById c id respond decR = .ok false ∧
    (∀ (p : GitHubProfileAPI) (name : String),
      IsRepoExist p name respond decR = .ok false) ∧
    (∀ s t : String, GhError.profileNotFound s ≠ GhError.repoNotFound t) := by
  have hdo : ∀ (β : Type) (d : Option (String → Except String β)) (q : Request),
      doJSON (respond q) d = .error (.httpError 404 (bodyCap body)) := by
    intro β d q
    rw [h404 q]
    rfl
  refine ⟨?_, ?_, ?_, ?_, ?_, ?_, ?_, ?_, ?_⟩
  · simp only [GetUserIfExists, if_neg hu, hdo]
  · simp only [GetUserByIdIfExist, hdo]
  · simp only [GetRepoByIdIfExist, hdo]
  · intro p name; simp only [GetRepoIfExist, hdo]
  · simp only [CheckUserExists, if_neg hu, hdo]
  · simp only [CheckUserExistsById, hdo]
  · simp only [CheckIsRepoExistsById, hdo]
  · intro p name; simp only [IsRepoExist, hdo]
  · intro s t h; cases h

/-- C7 witness: the theorem applied at a concrete client, username and id,
with a constant-404 server. -/
theorem notFound_typed_per_kind_witness :
    GetUserIfExists NewDefaultGitHubAPI " alice " (fun _ => .ok ⟨404, "nf"⟩)
        (fun _ => .error "unused") = .error (.profileNotFound "alice") ∧
    GetRepoByIdIfExist NewDefaultGitHubAPI (-3) (fun _ => .ok ⟨404, "nf"⟩)
        (fun _ => .error "unused") = .error (.repoNotFound "-3") := by
  have h := notFound_typed_per_kind NewDefaultGitHubAPI " alice " (-3) "nf"
    (fun _ => .ok ⟨404, "nf"⟩) (fun _ => .error "unused") (fun _ => .error "unused")
    (fun _ => rfl) (by decide)
  exact ⟨h.1, h.2.2.1⟩

/-- C10: on a 2xx response, if no decode target was supplied or the capped
body is empty, `doJSON` succeeds without decoding; a decode error can only
arise from a 2xx response whose capped body is non-empty with a decode
target supplied; and a fetch on a 2xx empty-body response succeeds with
the zero-valued resource object. -/
theorem doJSON_skips_decoding (α : Type) :
    (∀ (r : HTTPResp) (dec : Option (String → Except String α)),
      200 ≤ r.status → r.status < 300 → (dec = none ∨ bodyCap r.body = "") →
      doJSON (.ok r) dec = .ok none) ∧
    (∀ (resp : HTTPResult) (dec : Option (String → Except String α)) (e : String),
      doJSON resp dec = .error (.decodeError e) →
      ∃ r, resp = .ok r ∧ 200 ≤ r.status ∧ r.status < 300 ∧ bodyCap r.body ≠ "" ∧
        dec ≠ none) ∧
    (∀ (dec : String → Except String RepoData),
      GetRepoByIdIfExist NewDefaultGitHubAPI 7 (fun _ => .ok ⟨204, ""⟩) dec =
        .ok ⟨GitHubAPI.zero, RepoData.zero⟩) := by
  refine ⟨?_, ?_, ?_⟩
  · intro r dec h1 h2 h3
    have hst : ¬(r.status < 200 ∨ 300 ≤ r.status) := by omega
    rcases h3 with h3 | h3
    · simp [doJSON, hst, h3]
    · cases dec with
      | none => simp [doJSON, hst]
      | some d => simp [doJSON, hst, h3]
  · intro resp dec e h
    cases resp with
    | error msg => simp [doJSON] at h
    | ok r =>
      by_cases hst : r.status < 200 ∨ 300 ≤ r.status
      · simp [doJSON, hst] at h
      · cases dec with
        | none => simp [doJSON, hst] at h
        | some d =>
          by_cases hb : bodyCap r.body = ""
          · simp [doJSON, hst, hb] at h
          · exact ⟨r, rfl, by omega, by omega, hb, by simp⟩
  · intro dec
    rfl

/-- C10 witness: the theorem's first part applied at a concrete 200
response with no decode target. -/
theorem doJSON_skips_decoding_witness :
    doJSON (α := String) (.ok ⟨200, "ignored"⟩) none = .ok none :=
  (doJSON_skips_decoding String).1 ⟨200, "ignored"⟩ none (by decide) (by decide)
    (Or.inl rfl)

/-- `rdiv a b` is within half a unit of the exact quotient:
`|rdiv a b − a/b| ≤ 1/2`, stated integrally. -/
theorem rdiv_bound (a b : Nat) (hb : 0 < b) :
    2 * a ≤ 2 * (rdiv a b * b) + b ∧ 2 * (rdiv a b * b) ≤ 2 * a + b := by
  have h1 : a / b * b + a % b = a := Nat.div_add_mod' a b
  have h2 : a % b < b := Nat.mod_lt a hb
  unfold rdiv
  split_ifs with h3 h4 h5 <;>
    (try simp only [Nat.add_mul, Nat.one_mul]) <;>
    (generalize hq : a / b = q at *) <;>
    (generalize hr : a % b = r at *) <;>
    (generalize hT : q * b = T at *) <;>
    omega

/-- The two-step rounding of `fmtFixed1` (quotient to 53-bit significand,
then to one decimal digit) keeps `t·d/10` within about half a unit of `m`:
with `10·d ≤ 20·sc`, the slack is at most `(d + 20)/2`. -/
theorem rdiv_chain_bound (m d sc : Nat) (hd : 0 < d) (hsc : 0 < sc)
    (hslack : 10 * d ≤ 20 * sc) :
    2 * (rdiv (rdiv (m * sc) d * 10) sc) * d ≤ 20 * m + d + 20 ∧
    20 * m ≤ 2 * (rdiv (rdiv (m * sc) d * 10) sc) * d + d + 20 := by
  have A := rdiv_bound (m * sc) d hd
  have B := rdiv_bound (rdiv (m * sc) d * 10) sc hsc
  set M := rdiv (m * sc) d with hM
  set t := rdiv (M * 10) sc with ht
  constructor
  · have hcancel : (2 * t * d) * sc ≤ (20 * m + d + 20) * sc := by
      calc (2 * t * d) * sc = (2 * (t * sc)) * d := by ring
        _ ≤ (2 * (M * 10) + sc) * d := Nat.mul_le_mul_right d B.2
        _ = (2 * (M * d)) * 10 + sc * d := by ring
        _ ≤ (2 * (m * sc) + d) * 10 + sc * d :=
            Nat.add_le_add_right (Nat.mul_le_mul_right 10 A.2) _
        _ = 20 * (m * sc) + 10 * d + sc * d := by ring
        _ ≤ 20 * (m * sc) + 20 * sc + sc * d :=
            Nat.add_le_add_right (Nat.add_le_add_left hslack _) _
        _ = (20 * m + d + 20) * sc := by ring
    exact Nat.le_of_mul_le_mul_right hcancel hsc
  · have hcancel : (20 * m) * sc ≤ (2 * t * d + d + 20) * sc := by
      calc (20 * m) * sc = (2 * (m * sc)) * 10 := by ring
        _ ≤ (2 * (M * d) + d) * 10 := Nat.mul_le_mul_right 10 A.1
        _ = (2 * (M * 10)) * d + 10 * d := by ring
        _ ≤ (2 * (t * sc) + sc) * d + 10 * d :=
            Nat.add_le_add_right (Nat.mul_le_mul_right d B.1) _
        _ ≤ (2 * (t * sc) + sc) * d + 20 * sc := Nat.add_le_add_left hslack _
        _ = (2 * t * d + d + 20) * sc := by ring
    exact Nat.le_of_mul_le_mul_right hcancel hsc

/-- If the scan ever answers a positive exponent, that power of two is a
lower bound of the input. -/
theorem expDown_pow_le (s v : Nat) : expDown s v = 0 ∨ 2 ^ expDown s v ≤ v := by
  induction s with
  | zero => exact Or.inl rfl
  | succ s ih =>
    unfold expDown
    by_cases h : 2 ^ (s + 1) ≤ v
    · rw [if_pos h]; exact Or.inr h
    · rw [if_neg h]; exact ih

/-- `floorLog2 v ≤ k` whenever `v < 2^(k+1)`. -/
theorem floorLog2_le (v k : Nat) (h : v < 2 ^ (k + 1)) : floorLog2 v ≤ k := by
  rcases expDown_pow_le 53 v with h0 | hle
  · unfold floorLog2; omega
  · by_contra hgt
    have hk : k + 1 ≤ floorLog2 v := by unfold floorLog2 at *; omega
    have : 2 ^ (k + 1) ≤ 2 ^ floorLog2 v := Nat.pow_le_pow_right (by norm_num) hk
    unfold floorLog2 at *
    omega

/-- C9: `humanizeInt` prints counts below 1000 as the literal decimal
string, counts in `[1000, 10^6)` as the quotient by 1000 to one decimal
place suffixed `k`, and larger counts (up to the exact range of `float64`)
as the quotient by 10^6 to one decimal place suffixed `M`: the printed
`a.b` value is always within one tenth of the exact quotient, and
`humanizeInt 999 = "999"`, `humanizeInt 1500 = "1.5k"`,
`humanizeInt 2500000 = "2.5M"`. -/
theorem humanizeInt_buckets :
    (∀ n : Int, 0 ≤ n → n < 1000 → humanizeInt n = toString n) ∧
    humanizeInt 999 = "999" ∧ humanizeInt 1500 = "1.5k" ∧
    humanizeInt 2500000 = "2.5M" ∧
    (∀ n : Int, 1000 ≤ n → n < 1000000 →
      ∃ t : Nat, humanizeInt n = toString (t / 10) ++ "." ++ toString (t % 10) ++ "k" ∧
        t % 10 < 10 ∧ n < 100 * (t : Int) + 100 ∧ 100 * (t : Int) < n + 100) ∧
    (∀ n : Int, 1000000 ≤ n → n < 2 ^ 53 →
      ∃ t : Nat, humanizeInt n = toString (t / 10) ++ "." ++ toString (t % 10) ++ "M" ∧
        t % 10 < 10 ∧ n < 100000 * (t : Int) + 100000 ∧
        100000 * (t : Int) < n + 100000) := by
  refine ⟨?_, by decide, by decide, by decide, ?_, ?_⟩
  · intro n h1 h2
    unfold humanizeInt
    rw [if_neg (by omega), if_neg (by omega)]
  · intro n h1 h2
    have hm1 : 1000 ≤ n.toNat := by omega
    have hm2 : n.toNat < 1000000 := by omega
    have hne : humanizeInt n = fmtFixed1 n.toNat 1000 ++ "k" := by
      unfold humanizeInt
      rw [if_neg (by omega), if_pos (by omega)]
    have hsle : floorLog2 (n.toNat / 1000) ≤ 9 := by
      apply floorLog2_le
      have h1024 : (2 : Nat) ^ (9 + 1) = 1024 := by norm_num
      omega
    have hscge : (8796093022208 : Nat) ≤ 2 ^ (52 - floorLog2 (n.toNat / 1000)) := by
      have h43 : (2 : Nat) ^ 43 = 8796093022208 := by norm_num
      calc (8796093022208 : Nat) = 2 ^ 43 := h43.symm
        _ ≤ 2 ^ (52 - floorLog2 (n.toNat / 1000)) :=
            Nat.pow_le_pow_right (by norm_num) (by omega)
    have hb := rdiv_chain_bound n.toNat 1000 (2 ^ (52 - floorLog2 (n.toNat / 1000)))
      (by norm_num) (by positivity) (by omega)
    refine ⟨rdiv (rdiv (n.toNat * 2 ^ (52 - floorLog2 (n.toNat / 1000))) 1000 * 10)
        (2 ^ (52 - floorLog2 (n.toNat / 1000))), ?_, ?_, ?_, ?_⟩
    · rw [hne]; rfl
    · omega
    · omega
    · omega
  · intro n h1 h2
    have h53 : (2 : Int) ^ 53 = 9007199254740992 := by norm_num
    have hm1 : 1000000 ≤ n.toNat := by omega
    have hm2 : n.toNat < 9007199254740992 := by omega
    have hne : humanizeInt n = fmtFixed1 n.toNat 1000000 ++ "M" := by
      unfold humanizeInt
      rw [if_pos (by omega)]
    have hsle : floorLog2 (n.toNat / 1000000) ≤ 33 := by
      apply floorLog2_le
      have hpow : (2 : Nat) ^ (33 + 1) = 17179869184 := by norm_num
      omega
    have hscge : (524288 : Nat) ≤ 2 ^ (52 - floorLog2 (n.toNat / 1000000)) := by
      have h19 : (2 : Nat) ^ 19 = 524288 := by norm_num
      calc (524288 : Nat) = 2 ^ 19 := h19.symm
        _ ≤ 2 ^ (52 - floorLog2 (n.toNat / 1000000)) :=
            Nat.pow_le_pow_right (by norm_num) (by omega)
    have hb := rdiv_chain_bound n.toNat 1000000 (2 ^ (52 - floorLog2 (n.toNat / 1000000)))
      (by norm_num) (by positivity) (by omega)
    refine ⟨rdiv (rdiv (n.toNat * 2 ^ (52 - floorLog2 (n.toNat / 1000000))) 1000000 * 10)
        (2 ^ (52 - floorLog2 (n.toNat / 1000000))), ?_, ?_, ?_, ?_⟩
    · rw [hne]; rfl
    · omega
    · omega
    · omega

/-- C9 witness: the sub-1000 bucket applied at 42. -/
theorem humanizeInt_buckets_witness : humanizeInt 42 = "42" :=
  humanizeInt_buckets.1 42 (by decide) (by decide)

/-- The standard alphabet map is injective on 6-bit values, and never
produces the padding character. -/
theorem b64Val_b64Char : ∀ v < 64, b64Val (b64Char v) = v ∧ b64Char v ≠ '=' := by decide

/-- Reassembling the three bytes of a base64 chunk from its four 6-bit
digits gives the bytes back. -/
theorem b64_chunk_digits (a b c : Nat) (_ha : a < 256) (hb : b < 256) (hc : c < 256) :
    a / 4 * 4 + (a % 4 * 16 + b / 16) / 16 = a ∧
    (a % 4 * 16 + b / 16) % 16 * 16 + (b % 16 * 4 + c / 64) / 4 = b ∧
    (b % 16 * 4 + c / 64) % 4 * 64 + c % 64 = c := by
  have e1 : (a % 4 * 16 + b / 16) / 16 = a % 4 := by
    rw [Nat.mul_comm (a % 4) 16, Nat.mul_add_div (by norm_num),
      Nat.div_div_eq_div_mul, Nat.div_eq_of_lt (by omega), Nat.add_zero]
  have e2 : (a % 4 * 16 + b / 16) % 16 = b / 16 := by
    rw [Nat.mul_comm (a % 4) 16, Nat.mul_add_mod]
    exact Nat.mod_eq_of_lt (by omega)
  have e3 : (b % 16 * 4 + c / 64) / 4 = b % 16 := by
    rw [Nat.mul_comm (b % 16) 4, Nat.mul_add_div (by norm_num),
      Nat.div_div_eq_div_mul, Nat.div_eq_of_lt (by omega), Nat.add_zero]
  have e4 : (b % 16 * 4 + c / 64) % 4 = c / 64 := by
    rw [Nat.mul_comm (b % 16) 4, Nat.mul_add_mod]
    exact Nat.mod_eq_of_lt (by omega)
  rw [e1, e2, e3, e4]
  refine ⟨by omega, by omega, by omega⟩

/-- Decoding inverts encoding on byte sequences: the mock server recovers
exactly the bytes that were encoded. -/
theorem base64_roundtrip : ∀ bs : List Nat, (∀ x ∈ bs, x < 256) →
    base64DecodeList (base64EncodeList bs) = bs
  | [] => fun _ => rfl
  | [a] => fun h => by
    have ha : a < 256 := h a (by simp)
    have h1 := b64Val_b64Char (a / 4) (by omega)
    have h2 := b64Val_b64Char (a % 4 * 16) (by omega)
    have e1 : a % 4 * 16 / 16 = a % 4 := Nat.mul_div_cancel (a % 4) (by norm_num)
    simp only [base64EncodeList, base64DecodeList, h1.1, h2.1, ite_true, ite_false,
      List.cons.injEq, and_true, e1]
    omega
  | [a, b] => fun h => by
    have ha : a < 256 := h a (by simp)
    have hb : b < 256 := h b (by simp)
    have hd := b64_chunk_digits a b 0 ha hb (by norm_num)
    have h1 := b64Val_b64Char (a / 4) (by omega)
    have h2 := b64Val_b64Char (a % 4 * 16 + b / 16) (by omega)
    have h3 := b64Val_b64Char (b % 16 * 4) (by omega)
    have e3 : b % 16 * 4 / 4 = b % 16 := Nat.mul_div_cancel (b % 16) (by norm_num)
    simp only [base64EncodeList, base64DecodeList, h1.1, h2.1, h3.1, if_neg h3.2, ite_true,
      ite_false, List.cons.injEq, and_true, e3]
    omega
  | a :: b :: c :: rest => fun h => by
    have ha : a < 256 := h a (by simp)
    have hb : b < 256 := h b (by simp)
    have hc : c < 256 := h c (by simp)
    have hrest := base64_roundtrip rest (fun x hx => h x (by simp [hx]))
    have hd := b64_chunk_digits a b c ha hb hc
    have h1 := b64Val_b64Char (a / 4) (by omega)
    have h2 := b64Val_b64Char (a % 4 * 16 + b / 16) (by omega)
    have h3 := b64Val_b64Char (b % 16 * 4 + c / 64) (by omega)
    have h4 := b64Val_b64Char (c % 64) (by omega)
    simp only [base64EncodeList, base64DecodeList, h1.1, h2.1, h3.1, h4.1, if_neg h3.2,
      if_neg h4.2, hrest, ite_true, ite_false, List.cons.injEq, and_true]
    omega

/-- Every byte of the UTF-8 encoding of a character is below 256. -/
theorem utf8Bytes_lt (ch : Char) : ∀ x ∈ utf8Bytes ch, x < 256 := by
  have hv : ch.toNat < 1114112 := by
    have h := ch.valid
    unfold UInt32.isValidChar Nat.isValidChar at h
    rcases h with h | ⟨h1, h2⟩
    · exact lt_trans h (by norm_num)
    · exact h2
  intro x hx
  simp only [utf8Bytes] at hx
  split_ifs at hx <;> simp at hx <;> omega

/-- Every byte of a Go string is below 256. -/
theorem strBytes_lt (s : String) : ∀ x ∈ strBytes s, x < 256 := by
  intro x hx
  unfold strBytes at hx
  rw [List.mem_flatten] at hx
  rcases hx with ⟨l, hl, hxl⟩
  rw [List.mem_map] at hl
  rcases hl with ⟨ch, _, rfl⟩
  exact utf8Bytes_lt ch x hxl

/-- Appending `.md` commutes with stripping leading slashes: the appended
extension is never stripped. -/
theorem trimLeftSlashes_append_md (fn : String) :
    trimLeftSlashes (fn ++ ".md") = trimLeftSlashes fn ++ ".md" := by
  show (⟨(fn.data ++ ".md".data).dropWhile (· = '/')⟩ : String) =
    ⟨(fn.data.dropWhile (· = '/')) ++ ".md".data⟩
  rw [List.dropWhile_append]
  by_cases h : (fn.data.dropWhile (· = '/')).isEmpty
  · rw [if_pos h]
    rw [List.isEmpty_iff] at h
    rw [h]
    rfl
  · rw [if_neg h]

/-- C5: `UploadMdFileWithToken` rejects a blank (after-trim) filename with
the dedicated error before issuing any request; appends `.md` when the
lowercased name lacks it; defaults an empty commit message and an empty
branch; carries in the one request it issues exactly the base64 encoding
of the content — a mock server decoding that field recovers the content's
bytes exactly — and maps a 422 response to the "already exists" error,
which is never the generic `HTTPError`-wrapping outcome. -/
theorem uploadMdFile_contract (r : GitHubRepoAPI)
    (filename content commitMsg branch : String)
    (respond : UploadReq → HTTPResult) (dec : String → Except String CreateContentResp) :
    (goTrimSpace filename = "" →
      UploadMdFileWithToken r filename content commitMsg branch respond dec =
        ([], .error .emptyFilename)) ∧
    (goTrimSpace filename ≠ "" →
      ∃ req res,
        UploadMdFileWithToken r filename content commitMsg branch respond dec =
          ([req], res) ∧
        req.body.content = base64Encode content ∧
        base64DecodeList req.body.content.data = strBytes content ∧
        (goHasSuffix (goToLower (goTrimSpace filename)) ".md" = false →
          normalizeMdFilename (goTrimSpace filename) =
            trimLeftSlashes (goTrimSpace filename) ++ ".md") ∧
        (commitMsg = "" →
          req.body.message = "chore: add " ++ normalizeMdFilename (goTrimSpace filename)) ∧
        (branch = "" →
          req.body.branch =
            (if r.data.defaultBranch = "" then none else some r.data.defaultBranch)) ∧
        (∀ b422, respond req = .ok ⟨422, b422⟩ →
          res = .error (.alreadyExists (normalizeMdFilename (goTrimSpace filename))
            (if branch = "" then r.data.defaultBranch else branch) (bodyCap b422)) ∧
          ∀ e, res ≠ .error (.gh e))) := by
  constructor
  · intro he
    simp only [UploadMdFileWithToken]
    rw [if_pos he]
  · intro hne
    simp only [UploadMdFileWithToken]
    rw [if_neg hne]
    refine ⟨_, _, rfl, rfl, ?_, ?_, ?_, ?_, ?_⟩
    · exact base64_roundtrip (strBytes content) (strBytes_lt content)
    · intro hmd
      simp only [normalizeMdFilename, hmd, if_pos]
      exact trimLeftSlashes_append_md (goTrimSpace filename)
    · intro hcm
      simp [hcm]
    · intro hbr
      simp [hbr]
    · intro b422 hresp
      have hdo : doJSON (α := CreateContentResp) (.ok ⟨422, b422⟩) (some dec) =
          .error (.httpError 422 (bodyCap b422)) := rfl
      constructor
      · rw [hresp, hdo]
      · intro e he
        rw [hresp, hdo] at he
        simp at he

/-- C5 witness: a blank filename is rejected with the dedicated error and
an empty request log, before any request reaches the server. -/
theorem uploadMdFile_contract_witness :
    UploadMdFileWithToken
      ⟨NewDefaultGitHubAPI, { RepoData.zero with ownerLogin := "o", name := "r" }⟩
      "   " "hi" "" "" (fun _ => .ok ⟨422, "dup"⟩) (fun _ => .error "x") =
      ([], .error .emptyFilename) :=
  (uploadMdFile_contract
    ⟨NewDefaultGitHubAPI, { RepoData.zero with ownerLogin := "o", name := "r" }⟩
    "   " "hi" "" "" (fun _ => .ok ⟨422, "dup"⟩) (fun _ => .error "x")).1 (by decide)
